import Mathlib

/-!
Verification of the heartbeat2 process-watchdog supervisor.

This file gives a shallow embedding of the Rust sources under src/ and
proves theorems about the embedded definitions.  Each definition's doc
comment names the Rust item it mirrors (file and lines).  Stateful code
is embedded as explicit state passing; fallible code returns Except or
Option (with none standing for a Rust panic where the comment says so);
machine integers i64 and usize are embedded as Int and Nat, with the
fallible conversions between them modelled explicitly.
-/

namespace Heartbeat2

/-- Error kinds of the crate (src/error.rs, enum ErrorType).  The source
variant named Type is rendered TypeErr because Type is reserved in Lean.
The Io variant carries no payload here since no claim inspects the
wrapped OS error. -/
inductive ErrorType where
  | ConfigFormat (message : String)
  | IllegalState (state : String)
  | MappingMissing (id : String)
  | MissingKey (key : String)
  | MissingSection (sec : String)
  | NoRunningProcess
  | PeerChannelClosed
  | StringEncoding
  | TypeErr (expected : String)
  | UnknownResponse (response : String)
  | Io
deriving Repr, DecidableEq

/-- Rust str::strip_prefix at the one-character pattern colon: some
remainder when the string starts with a colon, none otherwise.  Written
at the character-list level so that concrete instances reduce in the
kernel. -/
def stripColon (s : String) : Option String :=
  match s.data with
  | ':' :: rest => some (String.mk rest)
  | _ => none

/-- Rust str::to_uppercase, restricted to the ASCII range (Char.toUpper
maps only ASCII letters; the configuration keywords of this program are
ASCII). -/
def toUpperAscii (s : String) : String :=
  String.mk (s.data.map Char.toUpper)

/-- Keyword (src/keyword.rs line 99): wraps the keyword name string. -/
structure Keyword where
  name : String
deriving Repr, DecidableEq

/-- Keyword::new (src/keyword.rs lines 120-122): stores the given name
verbatim, with no case folding. -/
def Keyword.new (name : String) : Keyword :=
  Keyword.mk name

/-- Atoms of the sexp crate (sexp::Atom): strings, integers and floats.
The f64 payload of the float variant is carried by no claim and is left
out of the embedding; no code under verification inspects it. -/
inductive SAtom where
  | S (s : String)
  | I (i : Int)
  | F
deriving Repr, DecidableEq

/-- S-expressions of the sexp crate (sexp::Sexp): an atom or a list. -/
inductive Sexp where
  | atom (a : SAtom)
  | list (l : List Sexp)
deriving Repr

/-- Keyword::from_sexp (src/keyword.rs lines 152-160): expects a string
atom (the string_atom helper of src/keyword.rs lines 60-68 gives the
type error tagged string otherwise); a leading colon is stripped and
the remainder upper-cased, and a missing colon gives the type error
tagged keyword. -/
def Keyword.from_sexp : Sexp → Except ErrorType Keyword
  | Sexp.atom (SAtom.S s) =>
      match stripColon s with
      | some name => Except.ok (Keyword.new (toUpperAscii name))
      | none => Except.error (ErrorType.TypeErr "keyword")
  | _ => Except.error (ErrorType.TypeErr "string")

/-- Message (src/socket.rs lines 36-41): a message atom is either a plain
string or a keyword.  The source variants String and Keyword are
rendered ofString and ofKeyword. -/
inductive Message where
  | ofString (s : String)
  | ofKeyword (kw : Keyword)
deriving Repr, DecidableEq

/-- Message::as_str (src/socket.rs lines 45-50). -/
def Message.as_str : Message → String
  | Message.ofString s => s
  | Message.ofKeyword kw => kw.name

/-- TryFrom of tmq::Message for Message (src/socket.rs lines 53-68): the
received text becomes a keyword when it starts with a colon, keeping the
remainder verbatim with no case folding, and a plain string otherwise.
The StringEncoding failure of the source concerns non-UTF8 payloads,
which a String input cannot represent. -/
def Message.of_text (s : String) : Message :=
  match stripColon s with
  | some name => Message.ofKeyword (Keyword.new name)
  | none => Message.ofString s

/-- PartialEq of Message against Keyword (src/socket.rs lines 70-77): a
plain string compares against the keyword name; a keyword message
compares by the derived equality on the wrapped name string. -/
def Message.eq_keyword : Message → Keyword → Bool
  | Message.ofString s, rhs => s == rhs.name
  | Message.ofKeyword kw, rhs => kw == rhs

/-- Atom (src/expression.rs lines 45-54).  The source variant String is
rendered str and Int is rendered int; the float payload is untracked as
in SAtom. -/
inductive Atom where
  | str (s : String)
  | int (i : Int)
  | float
  | keyword (k : Keyword)
deriving Repr

/-- Expression (src/expression.rs lines 104-109). -/
inductive Expression where
  | atom (a : Atom)
  | list (l : List Expression)
deriving Repr

/-- Expression::from_atom (src/expression.rs lines 201-213): every arm of
the source returns Ok, so the embedding is total.  A string starting
with a colon becomes a keyword holding the upper-cased remainder. -/
def Expression.from_atom : SAtom → Atom
  | SAtom.I i => Atom.int i
  | SAtom.F => Atom.float
  | SAtom.S s =>
      match stripColon s with
      | some name => Atom.keyword (Keyword.new (toUpperAscii name))
      | none => Atom.str s

mutual

/-- Expression::from_sexp (src/expression.rs lines 149-154): total
because from_atom and from_list never fail in the source. -/
def Expression.from_sexp : Sexp → Expression
  | Sexp.atom a => Expression.atom (Expression.from_atom a)
  | Sexp.list l => Expression.list (Expression.from_list l)

/-- Expression::from_list (src/expression.rs lines 215-221). -/
def Expression.from_list : List Sexp → List Expression
  | [] => []
  | x :: xs => Expression.from_sexp x :: Expression.from_list xs

end

/-- KeywordSexp::is_keyword (src/plist.rs lines 81-88): true exactly for
a string atom whose text starts with a colon. -/
def Sexp.is_keyword : Sexp → Bool
  | Sexp.atom (SAtom.S s) => (stripColon s).isSome
  | _ => false

/-- KeywordPlist::from_vec (src/plist.rs lines 138-157): walks the vector
two elements at a time (chunks of 2); a lone trailing element is the
odd-count config format error, a non-keyword indicator is the other
config format error, and otherwise the indicator-value pair is
converted and accumulated in order. -/
def KeywordPlist.from_vec : List Sexp → Except ErrorType (List (Keyword × Expression))
  | [] => Except.ok []
  | [_] => Except.error (ErrorType.ConfigFormat "odd number of items")
  | ind :: v :: rest =>
      if ind.is_keyword then
        match Keyword.from_sexp ind with
        | Except.error e => Except.error e
        | Except.ok kw =>
            match KeywordPlist.from_vec rest with
            | Except.error e => Except.error e
            | Except.ok tail => Except.ok ((kw, Expression.from_sexp v) :: tail)
      else Except.error (ErrorType.ConfigFormat "indicator is not a keyword")

/-- Helper: the Except holds any value (Ok in the source). -/
def exceptOk {α : Type} : Except ErrorType α → Bool
  | Except.ok _ => true
  | Except.error _ => false

/-- Helper: the Except holds a ConfigFormat error. -/
def isConfigFormat {α : Type} : Except ErrorType α → Bool
  | Except.error (ErrorType.ConfigFormat _) => true
  | _ => false

/-- Spec-side predicate for the plist claim, written from the spec words:
every indicator position (the first element of each consecutive pair of
the top-level list) holds a keyword.  It is compared against the
behaviour of the source-derived from_vec. -/
def specIndicatorsAreKeywords : List Sexp → Bool
  | ind :: _ :: rest => ind.is_keyword && specIndicatorsAreKeywords rest
  | _ => true

/-- RestartManager (src/restart.rs lines 76-80): the abort history, a
list of UNIX timestamps in seconds (i64).  The config and logger fields
hold no state the claims inspect; the two configuration integers that
the methods read are passed as arguments instead. -/
structure RestartManager where
  history : List Int
deriving Repr, DecidableEq

/-- RestartManager::too_many_retries (src/restart.rs lines 161-173):
count the history entries at least now - retry_interval and compare the
count, converted usize to i64, with max_retries.  That conversion
cannot fail for a realizable history length, so it is the exact cast
from Nat. -/
def RestartManager.too_many_retries (m : RestartManager)
    (retry_interval max_retries now : Int) : Bool :=
  decide (max_retries ≤
    ((m.history.filter fun item => decide (now - retry_interval ≤ item)).length : Int))

/-- RestartManager::should_process_restart (src/restart.rs lines
125-127): the negation of too_many_retries. -/
def RestartManager.should_process_restart (m : RestartManager)
    (retry_interval max_retries now : Int) : Bool :=
  !(m.too_many_retries retry_interval max_retries now)

/-- Loop of RestartManager::prune (src/restart.rs lines 181-183): while
the history length is at least max_retries, remove the oldest entry.
Vec::remove(0) on an empty vector panics, modelled as none; that case
is reached exactly when max_retries is zero. -/
def pruneLoop (max_retries : Nat) : List Int → Option (List Int)
  | [] => if max_retries ≤ 0 then none else some []
  | x :: xs =>
      if max_retries ≤ xs.length + 1 then pruneLoop max_retries xs
      else some (x :: xs)

/-- RestartManager::prune (src/restart.rs lines 175-185): converts
max_retries from i64 to usize (an error for a negative value, modelled
none) and runs the removal loop. -/
def RestartManager.prune (m : RestartManager) (max_retries : Int) :
    Option RestartManager :=
  if max_retries < 0 then none
  else (pruneLoop max_retries.toNat m.history).map RestartManager.mk

/-- RestartManager::add_process_abort (src/restart.rs lines 151-159):
prune first, then append the current timestamp. -/
def RestartManager.add_process_abort (m : RestartManager)
    (max_retries now : Int) : Option RestartManager :=
  (m.prune max_retries).map fun m2 => RestartManager.mk (m2.history ++ [now])

/-- Status of the managed process (src/process.rs lines 52-61). -/
inductive Status where
  | Ready
  | Running
  | Terminated
  | Killed
deriving Repr, DecidableEq

/-- Signal (src/signal.rs lines 49-54): the subset of UNIX signals the
signal handler acts on. -/
inductive Signal where
  | Quit
  | Term
deriving Repr, DecidableEq

/-- UNIX signals appearing in the conversion of src/signal.rs. -/
inductive OsSignal where
  | SIGQUIT
  | SIGTERM
deriving Repr, DecidableEq

/-- From Signal for nix Signal (src/signal.rs lines 56-63). -/
def Signal.toOs : Signal → OsSignal
  | Signal.Quit => OsSignal.SIGQUIT
  | Signal.Term => OsSignal.SIGTERM

/-- EventType (src/event.rs lines 30-40). -/
inductive EventType where
  | Timeout
  | Aborted
  | Complete
  | Signalled (s : Signal)
deriving Repr, DecidableEq

/-- Calls the event reducer makes into its collaborators, at the
granularity of the methods invoked in src/event.rs: the process
manager's kill_process, set_killed, set_terminated and raise_signal,
the heartbeat's stop and the signal handler's close. -/
inductive ReducerCall where
  | killProcess
  | setKilled
  | setTerminated
  | raiseSignal (s : Signal)
  | heartbeatStop
  | signalClose
deriving Repr, DecidableEq

/-- EventHandler::consume_timeout_event (src/event.rs lines 222-226):
kill the process, close the signal handler; the heartbeat is not
stopped here. -/
def consume_timeout_event : List ReducerCall :=
  [ReducerCall.killProcess, ReducerCall.signalClose]

/-- EventHandler::consume_aborted_event (src/event.rs lines 228-235). -/
def consume_aborted_event : List ReducerCall :=
  [ReducerCall.setKilled, ReducerCall.heartbeatStop, ReducerCall.signalClose]

/-- EventHandler::consume_complete_event (src/event.rs lines 237-244). -/
def consume_complete_event : List ReducerCall :=
  [ReducerCall.setTerminated, ReducerCall.heartbeatStop, ReducerCall.signalClose]

/-- EventHandler::consume_signaled_event (src/event.rs lines 246-255). -/
def consume_signaled_event (signal : Signal) : List ReducerCall :=
  [ReducerCall.raiseSignal signal, ReducerCall.heartbeatStop, ReducerCall.signalClose]

/-- Dispatch of EventHandler::run (src/event.rs lines 172-177). -/
def dispatch : EventType → List ReducerCall
  | EventType.Timeout => consume_timeout_event
  | EventType.Aborted => consume_aborted_event
  | EventType.Complete => consume_complete_event
  | EventType.Signalled sig => consume_signaled_event sig

/-- Effect of each reducer call on the shared child status cell:
kill_process sets Killed (src/process.rs line 276), set_killed sets
Killed (line 337), set_terminated sets Terminated (line 352),
raise_signal sets Terminated (line 315); stopping the heartbeat and
closing the signal handler leave the child status alone. -/
def ReducerCall.apply : ReducerCall → Status → Status
  | ReducerCall.killProcess, _ => Status.Killed
  | ReducerCall.setKilled, _ => Status.Killed
  | ReducerCall.setTerminated, _ => Status.Terminated
  | ReducerCall.raiseSignal _, _ => Status.Terminated
  | ReducerCall.heartbeatStop, s => s
  | ReducerCall.signalClose, s => s

/-- EventHandler::run (src/event.rs lines 167-185) over the events
already enqueued: the while loop returns Ok once the shared child
status is Terminated or Killed, carrying the still-unread rest of the
queue; none means the loop exhausted the given events with the exit
condition still false (it would await further events, or panic on a
closed queue).  A handler failure makes run return Err, which is not a
normal termination and is outside this model. -/
def runModel : Status → List EventType → Option (Status × List EventType)
  | st, [] =>
      if st = Status.Terminated ∨ st = Status.Killed then some (st, []) else none
  | st, e :: rest =>
      if st = Status.Terminated ∨ st = Status.Killed then some (st, e :: rest)
      else runModel ((dispatch e).foldl (fun s c => ReducerCall.apply c s) st) rest

/-- Outcome of a supervised child run, RunProcess (src/process.rs lines
87-93). -/
inductive RunProcess where
  | Complete
  | Abort
deriving Repr, DecidableEq

/-- Observable effects of the Action::RaiseSignal branch of
ProcessManager::run_process. -/
inductive ChildEffect where
  | sendOsSignal (pid : Nat) (sig : OsSignal)
  | logWarning
deriving Repr, DecidableEq

/-- Action::RaiseSignal branch of ProcessManager::run_process
(src/process.rs lines 207-214): with a known child id the converted OS
signal is sent to that pid; with the child already exited a warning is
logged; both paths yield RunProcess::Complete. -/
def run_process_raise_signal (child_id : Option Nat) (signal : Signal) :
    List ChildEffect × RunProcess :=
  match child_id with
  | some id => ([ChildEffect.sendOsSignal id signal.toOs], RunProcess.Complete)
  | none => ([ChildEffect.logWarning], RunProcess.Complete)

/-- DEFAULT_SOCKET_TIMEOUT (src/socket.rs line 29), in milliseconds. -/
def DEFAULT_SOCKET_TIMEOUT : Nat := 3000

/-- RecvError (src/socket.rs lines 107-113): a reception timeout is a
distinct variant from every other reception failure. -/
inductive RecvError where
  | Timeout
  | Other (e : ErrorType)
deriving Repr, DecidableEq

/-- Deadline selection shared by recv_string and recv_multipart
(src/socket.rs lines 388-392 and 434-438): the timeout configured on
the socket when present, the default otherwise. -/
def recv_deadline : Option Nat → Nat
  | some t => t
  | none => DEFAULT_SOCKET_TIMEOUT

/-- SocketReceiver::recv_string (src/socket.rs lines 385-408).  The
within_deadline argument is what the underlying socket recv produced
before recv_deadline timeout elapsed: none when the deadline elapsed
first (the Elapsed branch of the timeout wrapper), some otherwise.
The payload is the first part's text; the source unwrap of a missing
or non-text first part is outside the claims. -/
def recv_string (timeout : Option Nat)
    (within_deadline : Option (Except ErrorType String)) :
    Except RecvError String :=
  let _deadline := recv_deadline timeout
  match within_deadline with
  | some (Except.ok s) => Except.ok s
  | some (Except.error e) => Except.error (RecvError.Other e)
  | none => Except.error RecvError.Timeout

/-- SocketReceiver::recv_multipart (src/socket.rs lines 431-453): like
recv_string, with each received part converted by the Message
conversion on success. -/
def recv_multipart (timeout : Option Nat)
    (within_deadline : Option (Except ErrorType (List String))) :
    Except RecvError (List Message) :=
  let _deadline := recv_deadline timeout
  match within_deadline with
  | some (Except.ok parts) => Except.ok (parts.map Message.of_text)
  | some (Except.error e) => Except.error (RecvError.Other e)
  | none => Except.error RecvError.Timeout

/-- Reply handling of Sup::sget (src/sup.rs lines 88-96).  The received
multipart is indexed at 0 and 1; an out-of-range index panics in Rust,
modelled as none.  The boolean connective in the source
short-circuits, so index 1 is touched only when index 0 compared equal
to keyword ENDPOINT or to keyword MISSING.  The kw macro of
src/keyword.rs upper-cases its literal argument, so the comparison
keywords are ENDPOINT and MISSING. -/
def sget_reply (id : Keyword) (multipart : List Message) :
    Option (Except ErrorType String) :=
  match multipart[0]? with
  | none => none
  | some m0 =>
      if m0.eq_keyword (Keyword.new "ENDPOINT") then
        match multipart[1]? with
        | none => none
        | some m1 => some (Except.ok m1.as_str)
      else if m0.eq_keyword (Keyword.new "MISSING") then
        match multipart[1]? with
        | none => none
        | some m1 =>
            if m1.eq_keyword (Keyword.new "ENDPOINT") then
              some (Except.error (ErrorType.MappingMissing id.name))
            else some (Except.error (ErrorType.UnknownResponse m0.as_str))
      else some (Except.error (ErrorType.UnknownResponse m0.as_str))

end Heartbeat2

/-! Theorems. -/

namespace Heartbeat2

/-- Helper: a result list of the prune loop is strictly shorter than the
bound. -/
theorem pruneLoop_length (mr : Nat) :
    ∀ h h2 : List Int, pruneLoop mr h = some h2 → h2.length < mr := by
  intro h
  induction h with
  | nil =>
      intro h2 hp
      by_cases hmr : mr ≤ 0
      · simp [pruneLoop, hmr] at hp
      · simp only [pruneLoop, if_neg hmr, Option.some.injEq] at hp
        subst hp
        simpa using Nat.lt_of_not_le hmr
  | cons x xs ih =>
      intro h2 hp
      by_cases hc : mr ≤ xs.length + 1
      · rw [pruneLoop, if_pos hc] at hp
        exact ih h2 hp
      · rw [pruneLoop, if_neg hc] at hp
        cases hp
        simp only [List.length_cons]
        omega

/-- C1: should_process_restart answers false exactly when at least
MAX-RETRIES history entries lie within the RETRY-INTERVAL window ending
at now, and a call to add_process_abort that returns leaves at most
MAX-RETRIES entries in the history, because prune runs before the
append. -/
theorem restart_policy_window (m : RestartManager) (w mr now : Int)
    (m2 : RestartManager) (h : m.add_process_abort mr now = some m2) :
    (m.should_process_restart w mr now = false ↔
      mr ≤ ((m.history.filter fun item => decide (now - w ≤ item)).length : Int)) ∧
    (m2.history.length : Int) ≤ mr := by
  constructor
  · simp [RestartManager.should_process_restart, RestartManager.too_many_retries]
  · unfold RestartManager.add_process_abort RestartManager.prune at h
    by_cases hneg : mr < 0
    · simp [hneg] at h
    · rw [if_neg hneg] at h
      cases hp : pruneLoop mr.toNat m.history with
      | none => rw [hp] at h; simp at h
      | some h2 =>
          rw [hp] at h
          simp only [Option.map_some', Option.some.injEq] at h
          subst h
          have hlen := pruneLoop_length mr.toNat m.history h2 hp
          simp only [List.length_append, List.length_cons, List.length_nil]
          omega

/-- Witness for restart_policy_window: a concrete history, window and
bound on which add_process_abort succeeds. -/
theorem restart_policy_window_at :
    ((RestartManager.mk [5]).should_process_restart 10 2 6 = false ↔
      (2 : Int) ≤
        (((RestartManager.mk [5]).history.filter
          fun item => decide ((6 : Int) - 10 ≤ item)).length : Int)) ∧
    (((RestartManager.mk [5, 6]).history.length : Int)) ≤ 2 :=
  restart_policy_window (RestartManager.mk [5]) 10 2 6 (RestartManager.mk [5, 6])
    (by decide)

/-- C2 counterexample: with the child running and the events Aborted then
Complete already enqueued, handling Aborted sets the child status to
Killed and the loop returns at once, leaving the already-enqueued
Complete event unprocessed in the queue; the claim says the reducer
processes every event already enqueued at that moment. -/
theorem reducer_leftover_event_cex :
    runModel Status.Running [EventType.Aborted, EventType.Complete] =
      some (Status.Killed, [EventType.Complete]) ∧
    [EventType.Complete] ≠ ([] : List EventType) := by
  exact ⟨by decide, by decide⟩

/-- C2 amended: the run loop returns normally only in a state where the
child status is Terminated or Killed, and once that predicate holds it
returns at the next loop check without reading further: re-running from
the returned state gives back the same state and the same unread queue,
so events still enqueued when the predicate became true stay in the
queue (the reset drains them later, unprocessed). -/
theorem reducer_exit_state (st st2 : Status) (q rem : List EventType)
    (h : runModel st q = some (st2, rem)) :
    (st2 = Status.Terminated ∨ st2 = Status.Killed) ∧
    runModel st2 rem = some (st2, rem) := by
  induction q generalizing st with
  | nil =>
      by_cases hp : st = Status.Terminated ∨ st = Status.Killed
      · rw [runModel, if_pos hp] at h
        simp only [Option.some.injEq, Prod.mk.injEq] at h
        obtain ⟨rfl, rfl⟩ := h
        exact ⟨hp, by rw [runModel, if_pos hp]⟩
      · rw [runModel, if_neg hp] at h
        exact absurd h (by simp)
  | cons e rest ih =>
      by_cases hp : st = Status.Terminated ∨ st = Status.Killed
      · rw [runModel, if_pos hp] at h
        simp only [Option.some.injEq, Prod.mk.injEq] at h
        obtain ⟨rfl, rfl⟩ := h
        exact ⟨hp, by rw [runModel, if_pos hp]⟩
      · rw [runModel, if_neg hp] at h
        exact ih _ h

/-- Witness for reducer_exit_state: from Running with one Aborted event
the loop returns in the Killed state with an empty queue. -/
theorem reducer_exit_state_at :
    (Status.Killed = Status.Terminated ∨ Status.Killed = Status.Killed) ∧
    runModel Status.Killed [] = some (Status.Killed, []) :=
  reducer_exit_state Status.Running Status.Killed [EventType.Aborted] []
    (by decide)

/-- C3: for each event the reducer performs exactly the actions of the
dispatch table, in order: Timeout kills the process and closes the
signal listener without stopping the heartbeat; Aborted sets the child
status Killed, stops the heartbeat and closes the signal listener;
Complete sets Terminated, stops the heartbeat and closes the signal
listener; Signalled k raises k on the supervisor, stops the heartbeat
and closes the signal listener. -/
theorem reducer_dispatch_table (k : Signal) :
    dispatch EventType.Timeout =
      [ReducerCall.killProcess, ReducerCall.signalClose] ∧
    (dispatch EventType.Timeout).contains ReducerCall.heartbeatStop = false ∧
    dispatch EventType.Aborted =
      [ReducerCall.setKilled, ReducerCall.heartbeatStop, ReducerCall.signalClose] ∧
    dispatch EventType.Complete =
      [ReducerCall.setTerminated, ReducerCall.heartbeatStop, ReducerCall.signalClose] ∧
    dispatch (EventType.Signalled k) =
      [ReducerCall.raiseSignal k, ReducerCall.heartbeatStop, ReducerCall.signalClose] ∧
    (∀ st, ReducerCall.apply ReducerCall.setKilled st = Status.Killed) ∧
    (∀ st, ReducerCall.apply ReducerCall.setTerminated st = Status.Terminated) := by
  exact ⟨rfl, by decide, rfl, rfl, rfl, fun st => rfl, fun st => rfl⟩

/-- C4: evaluating the RaiseSignal path of the child supervisor at the
Quit signal with the child still running (pid known): the supervisor
sends SIGQUIT to the child, so Quit is relayed, contradicting the claim
and the documentation of src/signal.rs; the Term half behaves as the
claim states. -/
theorem quit_signal_relayed :
    run_process_raise_signal (some 42) Signal.Quit =
      ([ChildEffect.sendOsSignal 42 OsSignal.SIGQUIT], RunProcess.Complete) ∧
    Signal.toOs Signal.Quit = OsSignal.SIGQUIT ∧
    run_process_raise_signal (some 42) Signal.Term =
      ([ChildEffect.sendOsSignal 42 OsSignal.SIGTERM], RunProcess.Complete) :=
  ⟨rfl, rfl, rfl⟩

/-- C5: the RaiseSignal branch sends the converted OS signal to the pid
when it is known, logs a warning when the child already exited, and
returns Complete in both cases, never Abort. -/
theorem raise_signal_always_complete (signal : Signal) (child_id : Option Nat) :
    (run_process_raise_signal child_id signal).2 = RunProcess.Complete ∧
    (run_process_raise_signal child_id signal).1 =
      (match child_id with
       | some id => [ChildEffect.sendOsSignal id signal.toOs]
       | none => [ChildEffect.logWarning]) := by
  cases child_id <;> exact ⟨rfl, rfl⟩

/-- C6: the receive deadline is the configured timeout when present and
the 3000 ms default otherwise; when the deadline elapses without a
reply both recv_string and recv_multipart produce the Timeout outcome,
a variant distinct from every Other outcome. -/
theorem recv_timeout_distinct (n : Nat) (tm : Option Nat) (e : ErrorType) :
    recv_deadline (some n) = n ∧
    recv_deadline none = DEFAULT_SOCKET_TIMEOUT ∧
    DEFAULT_SOCKET_TIMEOUT = 3000 ∧
    recv_string tm none = Except.error RecvError.Timeout ∧
    recv_multipart tm none = Except.error RecvError.Timeout ∧
    (RecvError.Timeout == RecvError.Other e) = false := by
  refine ⟨rfl, rfl, rfl, rfl, rfl, ?_⟩
  rfl

/-- C7 counterexample: the received message atom :xyZ keeps its case (the
conversion calls Keyword::new on the colon-stripped text without
upper-casing), so it does not compare equal to the keyword XYZ. -/
theorem received_atom_not_canonical_cex :
    Message.eq_keyword (Message.of_text ":xyZ") (Keyword.new "XYZ") = false := by
  decide

/-- C7 amended: a configuration atom with a leading colon parses to the
keyword named by the upper-cased remainder; a received message atom
with a leading colon becomes a keyword whose name is the remainder
verbatim, and comparing it to a keyword is exact string equality of
that remainder with the keyword name, with no case folding. -/
theorem keyword_canonicalization (s name : String) (kw : Keyword)
    (h : stripColon s = some name) :
    Keyword.from_sexp (Sexp.atom (SAtom.S s)) =
      Except.ok (Keyword.new (toUpperAscii name)) ∧
    (Message.eq_keyword (Message.of_text s) kw = true ↔ name = kw.name) := by
  constructor
  · simp [Keyword.from_sexp, h]
  · cases kw with
    | mk kname =>
        simp [Message.of_text, h, Message.eq_keyword, Keyword.new,
          beq_iff_eq, Keyword.mk.injEq]

/-- Witness for keyword_canonicalization at the source form :xyZ against
the keyword XYZ. -/
theorem keyword_canonicalization_at :
    (Keyword.from_sexp (Sexp.atom (SAtom.S ":xyZ")) =
      Except.ok (Keyword.new (toUpperAscii "xyZ")) ∧
    (Message.eq_keyword (Message.of_text ":xyZ") (Keyword.new "XYZ") = true ↔
      "xyZ" = (Keyword.new "XYZ").name)) :=
  keyword_canonicalization ":xyZ" "xyZ" (Keyword.new "XYZ") (by decide)

/-- Helper: a two-step induction principle for lists, following the
chunks-of-two walk of from_vec. -/
theorem list_pair_induction {α : Type} (P : List α → Prop)
    (h0 : P []) (h1 : ∀ x, P [x])
    (h2 : ∀ x y rest, P rest → P (x :: y :: rest)) : ∀ l, P l
  | [] => h0
  | [x] => h1 x
  | x :: y :: rest => h2 x y rest (list_pair_induction P h0 h1 h2 rest)

/-- Helper: converting a sexp that satisfies is_keyword to a Keyword
succeeds. -/
theorem keyword_from_sexp_isOk (s : Sexp) (h : s.is_keyword = true) :
    ∃ kw, Keyword.from_sexp s = Except.ok kw := by
  cases s with
  | list l => simp [Sexp.is_keyword] at h
  | atom a =>
      cases a with
      | S str =>
          simp only [Sexp.is_keyword] at h
          obtain ⟨name, hsc⟩ := Option.isSome_iff_exists.mp h
          exact ⟨Keyword.new (toUpperAscii name), by simp [Keyword.from_sexp, hsc]⟩
      | I i => simp [Sexp.is_keyword] at h
      | F => simp [Sexp.is_keyword] at h

/-- C8: building the plist succeeds exactly on an even-length list whose
indicator positions all hold keywords, and every failure is the
ConfigFormat error: an odd element count or a non-keyword indicator
each make the construction fail with ConfigFormat. -/
theorem plist_config_format (vec : List Sexp) :
    exceptOk (KeywordPlist.from_vec vec) =
      (decide (vec.length % 2 = 0) && specIndicatorsAreKeywords vec) ∧
    isConfigFormat (KeywordPlist.from_vec vec) =
      !(decide (vec.length % 2 = 0) && specIndicatorsAreKeywords vec) := by
  refine list_pair_induction
    (fun l =>
      exceptOk (KeywordPlist.from_vec l) =
        (decide (l.length % 2 = 0) && specIndicatorsAreKeywords l) ∧
      isConfigFormat (KeywordPlist.from_vec l) =
        !(decide (l.length % 2 = 0) && specIndicatorsAreKeywords l))
    ⟨rfl, rfl⟩ (fun x => ⟨rfl, rfl⟩) ?_ vec
  intro x y rest ih
  obtain ⟨ih1, ih2⟩ := ih
  by_cases hk : x.is_keyword = true
  · obtain ⟨kwx, hkw⟩ := keyword_from_sexp_isOk x hk
    have hlen : (x :: y :: rest).length % 2 = rest.length % 2 := by
      simp only [List.length_cons]
      omega
    simp only [KeywordPlist.from_vec, hk, if_true, hkw, hlen,
      specIndicatorsAreKeywords, Bool.true_and]
    cases hrec : KeywordPlist.from_vec rest with
    | error e =>
        rw [hrec] at ih1 ih2
        exact ⟨ih1, ih2⟩
    | ok tail =>
        rw [hrec] at ih1 ih2
        exact ⟨ih1, ih2⟩
  · have hk2 : x.is_keyword = false := by simpa using hk
    simp [KeywordPlist.from_vec, hk2, specIndicatorsAreKeywords,
      exceptOk, isConfigFormat]

/-- C9: with a reply of at least two atoms, sget returns the second atom
text when the first equals keyword ENDPOINT; raises MappingMissing
carrying the queried id when the first two are MISSING then ENDPOINT in
that order; and in every other case raises the unknown-response error
carrying the first atom text. -/
theorem sup_sget_reply (id : Keyword) (m0 m1 : Message) (rest : List Message) :
    (m0.eq_keyword (Keyword.new "ENDPOINT") = true →
      sget_reply id (m0 :: m1 :: rest) = some (Except.ok m1.as_str)) ∧
    (m0.eq_keyword (Keyword.new "ENDPOINT") = false →
      m0.eq_keyword (Keyword.new "MISSING") = true →
      m1.eq_keyword (Keyword.new "ENDPOINT") = true →
      sget_reply id (m0 :: m1 :: rest) =
        some (Except.error (ErrorType.MappingMissing id.name))) ∧
    (m0.eq_keyword (Keyword.new "ENDPOINT") = false →
      m0.eq_keyword (Keyword.new "MISSING") = true →
      m1.eq_keyword (Keyword.new "ENDPOINT") = false →
      sget_reply id (m0 :: m1 :: rest) =
        some (Except.error (ErrorType.UnknownResponse m0.as_str))) ∧
    (m0.eq_keyword (Keyword.new "ENDPOINT") = false →
      m0.eq_keyword (Keyword.new "MISSING") = false →
      sget_reply id (m0 :: m1 :: rest) =
        some (Except.error (ErrorType.UnknownResponse m0.as_str))) := by
  refine ⟨?_, ?_, ?_, ?_⟩
  · intro h0
    simp [sget_reply, h0]
  · intro h0 hm h1
    simp [sget_reply, h0, hm, h1]
  · intro h0 hm h1
    simp [sget_reply, h0, hm, h1]
  · intro h0 hm
    simp [sget_reply, h0, hm]

/-- C10 counterexample: a one-part reply whose atom is neither ENDPOINT
nor MISSING does not panic: it produces the unknown-response error, so
the claim that every reply of fewer than two parts panics is false. -/
theorem sget_short_reply_cex :
    sget_reply (Keyword.new "SVC") [Message.ofString "FOO"] =
      some (Except.error (ErrorType.UnknownResponse "FOO")) := by
  rfl

/-- C10 amended: sget indexes the reply at positions 0 and 1 without a
length check, and panics on an empty reply and on a one-part reply
whose atom equals keyword ENDPOINT or keyword MISSING; a one-part reply
with any other first atom instead returns the unknown-response error
carrying that atom text. -/
theorem sget_short_reply (id : Keyword) (m : Message) :
    sget_reply id [] = none ∧
    (m.eq_keyword (Keyword.new "ENDPOINT") = true → sget_reply id [m] = none) ∧
    (m.eq_keyword (Keyword.new "ENDPOINT") = false →
      m.eq_keyword (Keyword.new "MISSING") = true → sget_reply id [m] = none) ∧
    (m.eq_keyword (Keyword.new "ENDPOINT") = false →
      m.eq_keyword (Keyword.new "MISSING") = false →
      sget_reply id [m] =
        some (Except.error (ErrorType.UnknownResponse m.as_str))) := by
  refine ⟨rfl, ?_, ?_, ?_⟩
  · intro h0
    simp [sget_reply, h0]
  · intro h0 hm
    simp [sget_reply, h0, hm]
  · intro h0 hm
    simp [sget_reply, h0, hm]

end Heartbeat2
